import Mathlib

/-!
# smtpSever: session pipeline of the SMTP gateway

Shallow embedding of `db.go`, `forwarder.go` and the session methods of
`main.go`.

* Go `string` is `String`; Go `int`/`int64` and the SQL integer columns are `Int`
  (the code only compares them and adds a slice length to them).
* A Go `error` result is `Option String`: `none` is `nil`, `some msg` carries the text.
* A nil-pointer dereference is the outcome `Outcome.panic`.
* The relational store is four lists of rows, one per table named in the query of
  `GetUserAndDomainData`; the join is evaluated as a nested loop in table order.
  Column comparison is exact string equality.
* Functions of `net/mail`, the upstream SMTP peer, the clock, the random source and
  the iteration order of a Go map are not part of the repository: they are
  parameters (`Lib`, `Net`).
-/

set_option linter.dupNamespace false

namespace SmtpSever

/-! ## db.go -/

/-- Go `error`: `none` is `nil`. -/
abbrev GoError := Option String

/-- The struct `UserData` of `db.go`. -/
structure UserData where
  UserPlanID : Int
  Status : Int
  DayLimit : Int
  HourLimit : Int
  TotalLimit : Int
  UsedDayLimit : Int
  UsedHourLimit : Int
  UsedTotalLimit : Int
  Domains : List String
  ServerHost : String
  ServerPort : String
  ServerUsername : String
  ServerPassword : String
deriving DecidableEq, Repr

/-- Row of table `user_plans` (the columns the two statements of `db.go` name). -/
structure UserPlanRow where
  id : Int
  username : String
  password : String
  status : Int
  day_limit : Int
  hour_limit : Int
  total_limit : Int
  used_day_limit : Int
  used_hour_limit : Int
  used_total_limit : Int
  server_plan_id : Int
deriving DecidableEq, Repr

/-- Row of table `user_domains`. -/
structure UserDomainRow where
  user_plan_id : Int
  domain : String
  status : Int
deriving DecidableEq, Repr

/-- Row of table `server_plans`. -/
structure ServerPlanRow where
  plan_id : Int
  server_id : Int
deriving DecidableEq, Repr

/-- Row of table `servers`. -/
structure ServerRow where
  id : Int
  host : String
  port : String
  username : String
  password : String
deriving DecidableEq, Repr

/-- The store behind `DB.conn`. `queryErr` / `execErr` are the error the driver
returns for a `Query` / `Exec` (`none`: the statement runs); a statement that
returns an error changes nothing. -/
structure DB where
  user_plans : List UserPlanRow
  user_domains : List UserDomainRow
  server_plans : List ServerPlanRow
  servers : List ServerRow
  queryErr : GoError
  execErr : GoError
deriving DecidableEq, Repr

/-- One row of the result set of the SELECT in `GetUserAndDomainData`
(13 columns, in the order of the select list). -/
structure JoinRow where
  id : Int
  status : Int
  day_limit : Int
  hour_limit : Int
  total_limit : Int
  used_day_limit : Int
  used_hour_limit : Int
  used_total_limit : Int
  domain : String
  host : String
  port : String
  username : String
  password : String
deriving DecidableEq, Repr

/-- The SELECT of `GetUserAndDomainData`: inner joins of `user_plans`, `user_domains`,
`server_plans`, `servers` with the WHERE clause
`up.username = ? AND up.password = ? AND up.status = 1 AND ud.status = 1`. -/
def DB.selectUserAndDomain (db : DB) (username password : String) : List JoinRow :=
  db.user_plans.flatMap fun up =>
  db.user_domains.flatMap fun ud =>
  db.server_plans.flatMap fun sp =>
  db.servers.flatMap fun s =>
    if up.id = ud.user_plan_id ∧ up.server_plan_id = sp.plan_id ∧ sp.server_id = s.id
        ∧ up.username = username ∧ up.password = password ∧ up.status = 1 ∧ ud.status = 1 then
      [{ id := up.id, status := up.status, day_limit := up.day_limit,
         hour_limit := up.hour_limit, total_limit := up.total_limit,
         used_day_limit := up.used_day_limit, used_hour_limit := up.used_hour_limit,
         used_total_limit := up.used_total_limit, domain := ud.domain,
         host := s.host, port := s.port, username := s.username, password := s.password }]
    else []

/-- The zero value `var userData UserData`. -/
def UserData.zero : UserData :=
  { UserPlanID := 0, Status := 0, DayLimit := 0, HourLimit := 0, TotalLimit := 0,
    UsedDayLimit := 0, UsedHourLimit := 0, UsedTotalLimit := 0, Domains := [],
    ServerHost := "", ServerPort := "", ServerUsername := "", ServerPassword := "" }

/-- One `rows.Scan(...)` followed by `userData.Domains = append(userData.Domains, domain)`. -/
def scanRow (userData : UserData) (r : JoinRow) : UserData :=
  { UserPlanID := r.id, Status := r.status, DayLimit := r.day_limit,
    HourLimit := r.hour_limit, TotalLimit := r.total_limit,
    UsedDayLimit := r.used_day_limit, UsedHourLimit := r.used_hour_limit,
    UsedTotalLimit := r.used_total_limit,
    Domains := userData.Domains ++ [r.domain],
    ServerHost := r.host, ServerPort := r.port,
    ServerUsername := r.username, ServerPassword := r.password }

/-- Go `func (db *DB) GetUserAndDomainData(username, password string) (*UserData, error)`. -/
def DB.GetUserAndDomainData (db : DB) (username password : String) : Except String UserData :=
  match db.queryErr with
  | some err => .error err
  | none =>
    match db.selectUserAndDomain username password with
    | [] => .error "invalid username or password"
    | r :: rows =>
      let userData := scanRow UserData.zero r
      let userData := rows.foldl scanRow userData
      if userData.Domains.length = 0 then
        .error "not allowed to send emails to any domain"
      else
        .ok userData

/-- Go `func (db *DB) CheckSendLimits(userData *UserData) error`. -/
def CheckSendLimits (userData : UserData) : GoError :=
  if userData.UsedTotalLimit ≥ userData.TotalLimit then
    some "total limit exceeded"
  else if userData.UsedDayLimit ≥ userData.DayLimit then
    some "daily limit exceeded"
  else if userData.UsedHourLimit ≥ userData.HourLimit then
    some "hourly limit exceeded"
  else
    none

/-- Effect of the UPDATE of `UpdateSendLimits` on one row of `user_plans`. -/
def bumpRow (userPlansID increment : Int) (r : UserPlanRow) : UserPlanRow :=
  if r.id = userPlansID then
    { r with used_total_limit := r.used_total_limit + increment,
             used_day_limit := r.used_day_limit + increment,
             used_hour_limit := r.used_hour_limit + increment }
  else r

/-- Go `func (db *DB) UpdateSendLimits(userPlansID int64, increment int) error`:
returns the error of `Exec` and the store after the statement. -/
def DB.UpdateSendLimits (db : DB) (userPlansID increment : Int) : GoError × DB :=
  match db.execErr with
  | some err => (some err, db)
  | none => (none, { db with user_plans := db.user_plans.map (bumpRow userPlansID increment) })

/-! ## forwarder.go -/

/-- The struct `Email` of `forwarder.go`. -/
structure Email where
  From : String
  To : List String
  Subject : String
  Body : String
  SMTPHost : String
  SMTPPort : String
  Username : String
  Password : String
deriving DecidableEq, Repr

/-- Command issued to the upstream server by `SendEmail`. -/
inductive Cmd where
  | dial (serverAddress : String)
  | startTLS
  | auth (username password host : String)
  | mail (sender : String)
  | rcpt (addr : String)
  | data
  | write (message : String)
  | close
deriving DecidableEq, Repr

/-- Everything one call of `SendEmail` takes from outside the program: the clock,
the random source, the order in which `range headers` visits the map, and the
answers of the upstream server (`none`: the call returns a nil error). -/
structure Net where
  now : String
  unixNano : Int
  randInt : Nat
  rangeOrder : List (String × String) → List (String × String)
  dial : String → GoError
  extSTARTTLS : Bool
  startTLS : GoError
  auth : String → String → String → GoError
  mail : String → GoError
  rcpt : String → GoError
  data : GoError
  write : String → GoError
  close : GoError

/-- Go `func generateMessageID(domain string) string`. -/
def generateMessageID (net : Net) (domain : String) : String :=
  "<" ++ toString net.unixNano ++ "." ++ toString net.randInt ++ "@" ++ domain ++ ">"

/-- Assignment `headers[k] = v` on a `map[string]string` kept as an association list. -/
def setHeader (headers : List (String × String)) (k v : String) : List (String × String) :=
  match headers with
  | [] => [(k, v)]
  | (k0, v0) :: rest => if k0 = k then (k, v) :: rest else (k0, v0) :: setHeader rest k v

/-- Lookup `headers[k]` (the empty string for an absent key). -/
def getHeader (headers : List (String × String)) (k : String) : String :=
  match headers with
  | [] => ""
  | (k0, v0) :: rest => if k0 = k then v0 else getHeader rest k

/-- Go `strings.Join(elems, sep)`. -/
def Join (elems : List String) (sep : String) : String :=
  match elems with
  | [] => ""
  | [a] => a
  | a :: rest => a ++ sep ++ Join rest sep

/-- The block `if singleRecipientOnly && len(email.To) > 1 { email.To = email.To[:1] ... }`
of `SendEmail`, on the recipient list. -/
def truncateTo (singleRecipientOnly : Bool) (to_ : List String) : List String :=
  if singleRecipientOnly ∧ to_.length > 1 then to_.take 1 else to_

/-- The `headers` map of `SendEmail` when the loop over it starts. -/
def composeHeaders (singleRecipientOnly : Bool) (net : Net) (email : Email) :
    List (String × String) :=
  let headers : List (String × String) := []
  let headers := setHeader headers "From" email.From
  let headers := setHeader headers "To" (Join email.To ",")
  let headers := setHeader headers "Subject" email.Subject
  let headers := setHeader headers "MIME-Version" "1.0"
  let headers := setHeader headers "Content-Type" "text/html; charset=\"UTF-8\""
  let headers := setHeader headers "Date" net.now
  let headers := setHeader headers "Message-ID" (generateMessageID net email.SMTPHost)
  if singleRecipientOnly ∧ email.To.length > 1 then
    setHeader headers "To" ((email.To.take 1).headD "")
  else headers

/-- The text written to the upstream server. -/
def composeMessage (singleRecipientOnly : Bool) (net : Net) (email : Email) : String :=
  ((net.rangeOrder (composeHeaders singleRecipientOnly net email)).foldl
      (fun message kv => message ++ (kv.1 ++ ": " ++ kv.2 ++ "\r\n")) "")
    ++ ("\r\n" ++ email.Body)

/-- The loop `for _, addr := range email.To { conn.Rcpt(addr) ... }`. -/
def rcptLoop (net : Net) : List String → GoError × List Cmd
  | [] => (none, [])
  | addr :: rest =>
    match net.rcpt addr with
    | some err => (some ("failed to set recipient: " ++ err), [Cmd.rcpt addr])
    | none =>
      let r := rcptLoop net rest
      (r.1, Cmd.rcpt addr :: r.2)

/-- The tail of `SendEmail` from `conn.Data()` on. -/
def sendBody (net : Net) (message : String) : GoError × List Cmd :=
  match net.data with
  | some err => (some ("failed to get data: " ++ err), [Cmd.data])
  | none =>
    match net.write message with
    | some err => (some ("failed to write data: " ++ err), [Cmd.data, Cmd.write message])
    | none =>
      match net.close with
      | some err =>
        (some ("failed to close email writer: " ++ err), [Cmd.data, Cmd.write message, Cmd.close])
      | none => (none, [Cmd.data, Cmd.write message, Cmd.close])

/-- The part of `SendEmail` from `conn.Auth` on. -/
def sendEnvelope (net : Net) (email : Email) (to_ : List String) (message : String) :
    GoError × List Cmd :=
  match net.auth email.Username email.Password email.SMTPHost with
  | some err =>
    (some ("failed to authenticate with server: " ++ err),
      [Cmd.auth email.Username email.Password email.SMTPHost])
  | none =>
    match net.mail email.From with
    | some err =>
      (some ("failed to set sender: " ++ err),
        [Cmd.auth email.Username email.Password email.SMTPHost, Cmd.mail email.From])
    | none =>
      let r := rcptLoop net to_
      match r.1 with
      | some err =>
        (some err,
          [Cmd.auth email.Username email.Password email.SMTPHost, Cmd.mail email.From] ++ r.2)
      | none =>
        let b := sendBody net message
        (b.1,
          [Cmd.auth email.Username email.Password email.SMTPHost, Cmd.mail email.From]
            ++ r.2 ++ b.2)

/-- Go `func SendEmail(email Email) error`, with the global `singleRecipientOnly` as an
argument; the second component is the list of commands issued upstream. -/
def SendEmail (singleRecipientOnly : Bool) (net : Net) (email : Email) : GoError × List Cmd :=
  let to_ := truncateTo singleRecipientOnly email.To
  let message := composeMessage singleRecipientOnly net email
  let serverAddress := email.SMTPHost ++ ":" ++ email.SMTPPort
  match net.dial serverAddress with
  | some err => (some ("failed to connect to SMTP server: " ++ err), [Cmd.dial serverAddress])
  | none =>
    if net.extSTARTTLS then
      match net.startTLS with
      | some err =>
        (some ("failed to start TLS: " ++ err), [Cmd.dial serverAddress, Cmd.startTLS])
      | none =>
        let r := sendEnvelope net email to_ message
        (r.1, [Cmd.dial serverAddress, Cmd.startTLS] ++ r.2)
    else
      let r := sendEnvelope net email to_ message
      (r.1, Cmd.dial serverAddress :: r.2)

/-- The recipients named in `RCPT` commands of a transcript. -/
def rcptsOf : List Cmd → List String
  | [] => []
  | Cmd.rcpt a :: rest => a :: rcptsOf rest
  | _ :: rest => rcptsOf rest

/-- The texts carried by the `Write` commands of a transcript. -/
def writesOf : List Cmd → List String
  | [] => []
  | Cmd.write m :: rest => m :: writesOf rest
  | _ :: rest => writesOf rest

/-- The header line `fmt.Sprintf("%s: %s\r\n", k, v)` of `SendEmail`. -/
def headerLine (kv : String × String) : String :=
  kv.1 ++ ": " ++ kv.2 ++ "\r\n"

/-- Concatenation of lines, first line first. -/
def concatLines : List String → String
  | [] => ""
  | line :: rest => line ++ concatLines rest

/-! ## main.go -/

/-- The struct `mail.Address` of `net/mail`. -/
structure Address where
  Name : String
  Address : String
deriving DecidableEq, Repr

/-- What `mail.ReadMessage` returns: the header fields in the order read, with
canonical keys, and the body text. -/
structure Message where
  Header : List (String × String)
  Body : String
deriving DecidableEq, Repr

/-- The functions of Go package `net/mail` the program calls. -/
structure Lib where
  ParseAddress : String → Except String Address
  ReadMessage : String → Except String Message
  AddressString : Address → String

/-- Go `strings.Split(s, sep)` for a one-character separator, on the characters of `s`. -/
def splitChars (sep : Char) : List Char → List (List Char)
  | [] => [[]]
  | c :: cs =>
    if c = sep then [] :: splitChars sep cs
    else
      match splitChars sep cs with
      | [] => [[c]]
      | p :: ps => (c :: p) :: ps

/-- Go `strings.Split(s, "@")`. -/
def Split (s : String) (sep : Char) : List String :=
  (splitChars sep s.data).map String.mk

/-- Go `func extractDomain(from string) (string, error)`. -/
def extractDomain (lib : Lib) (from_ : String) : Except String String :=
  match lib.ParseAddress from_ with
  | .error err => .error err
  | .ok address =>
    match Split address.Address '@' with
    | [_, domain] => .ok domain
    | _ => .error "Invalid email address"

/-- Go `func checkCredentials(username, password string) (*UserData, error)`. -/
def checkCredentials (db : DB) (username password : String) : Except String UserData :=
  match db.GetUserAndDomainData username password with
  | .error err => .error err
  | .ok userData =>
    match CheckSendLimits userData with
    | some err => .error err
    | none => .ok userData

/-- The struct `Session` of `main.go`; `userData = none` is the nil pointer. -/
structure Session where
  username : String
  password : String
  userData : Option UserData
  to_ : List String
  form : String
  subject : String
deriving DecidableEq, Repr

/-- The value `&Session{}` returned by `NewSession`. -/
def Session.new : Session :=
  { username := "", password := "", userData := none, to_ := [], form := "", subject := "" }

/-- How a session method ends: nil error, an error, or a nil-pointer panic. -/
inductive Outcome where
  | ok
  | err (msg : String)
  | panic
deriving DecidableEq, Repr

/-- Go `func (s *Session) Auth(mech string) (sasl.Server, error)` followed by the run of
the credential callback of the returned server on `username`, `password`
(`sasl.Login` is "LOGIN", `sasl.Plain` is "PLAIN"; both callbacks have the same body). -/
def Session.Auth (db : DB) (s : Session) (mech username password : String) :
    Outcome × Session :=
  if mech = "LOGIN" ∨ mech = "PLAIN" then
    match checkCredentials db username password with
    | .error err => (.err err, s)
    | .ok userData =>
      (.ok, { s with username := username, password := password, userData := some userData })
  else (.err "unsupported mechanism", s)

/-- The loop of `Session.Mail` that sets `validDomain`. -/
def validDomainLoop (domain : String) : List String → Bool
  | [] => false
  | d :: rest => if d = domain then true else validDomainLoop domain rest

/-- Go `func (s *Session) Mail(from string, opts *smtp.MailOptions) error`. -/
def Session.Mail (lib : Lib) (s : Session) (from_ : String) : Outcome × Session :=
  match extractDomain lib from_ with
  | .error err => (.err err, s)
  | .ok domain =>
    match s.userData with
    | none => (.panic, s)
    | some userData =>
      if validDomainLoop domain userData.Domains then
        (.ok, { s with form := from_ })
      else (.err "invalid domain", s)

/-- Go `func (s *Session) Rcpt(to string, opts *smtp.RcptOptions) error`. -/
def Session.Rcpt (s : Session) (to_ : String) : Outcome × Session :=
  (.ok, { s with to_ := s.to_ ++ [to_] })

/-- Go `message.Header.Get(key)` for an already canonical `key`. -/
def Message.Get (message : Message) (key : String) : String :=
  getHeader message.Header key

/-- What a call of `Session.Data` did. -/
structure DataResult where
  out : Outcome
  s : Session
  db : DB
  emails : List Email
  trace : List Cmd
  commits : List (Int × Int)

/-- The composite literal `Email{...}` of `Session.Data`. -/
def Session.email (s : Session) (body : String) (userData : UserData) : Email :=
  { From := s.form, To := s.to_, Subject := s.subject, Body := body,
    SMTPHost := userData.ServerHost, SMTPPort := userData.ServerPort,
    Username := userData.ServerUsername, Password := userData.ServerPassword }

/-- The statements of `Session.Data` from the call of `SendEmail` on. -/
def Session.forward (singleRecipientOnly : Bool) (net : Net) (db : DB) (s : Session)
    (userData : UserData) (email : Email) : DataResult :=
  let sent := SendEmail singleRecipientOnly net email
  match sent.1 with
  | some err => ⟨.err ("failed to forward email: " ++ err), s, db, [email], sent.2, []⟩
  | none =>
    let upd := db.UpdateSendLimits userData.UserPlanID s.to_.length
    match upd.1 with
    | some err =>
      ⟨.err ("failed to update send limits: " ++ err), s, upd.2, [email], sent.2,
        [(userData.UserPlanID, s.to_.length)]⟩
    | none => ⟨.ok, s, upd.2, [email], sent.2, [(userData.UserPlanID, s.to_.length)]⟩

/-- Go `func (s *Session) Data(r io.Reader) error`. The argument `r` is what
`ioutil.ReadAll(r)` returns. `emails` lists the arguments of the calls of `SendEmail`,
`trace` the commands sent upstream, `commits` the arguments of the calls of
`UpdateSendLimits`. -/
def Session.Data (lib : Lib) (singleRecipientOnly : Bool) (net : Net) (db : DB)
    (s : Session) (r : Except String String) : DataResult :=
  match r with
  | .error err => ⟨.err err, s, db, [], [], []⟩
  | .ok data =>
    match lib.ReadMessage data with
    | .error err => ⟨.err err, s, db, [], [], []⟩
    | .ok message =>
      let s := { s with subject := message.Get "Subject" }
      let fromHeader := message.Get "From"
      match lib.ParseAddress fromHeader with
      | .error err => ⟨.err err, s, db, [], [], []⟩
      | .ok from_ =>
        let s := { s with form := lib.AddressString from_ }
        let body := message.Body
        match s.userData with
        | none => ⟨.panic, s, db, [], [], []⟩
        | some userData =>
          Session.forward singleRecipientOnly net db s userData (s.email body userData)

/-- Go `func (s *Session) Reset()`. -/
def Session.Reset (s : Session) : Session :=
  { s with username := "", password := "", userData := none, form := "", to_ := [] }

/-! ## Sessions sharing one store -/

/-- One call of a session method by the protocol library, on the session of
connection `i`. A body delivery carries the behaviour of the outside world during
its call of `SendEmail`. -/
inductive Op where
  | auth (i : Nat) (mech username password : String)
  | mail (i : Nat) (from_ : String)
  | rcpt (i : Nat) (to_ : String)
  | data (i : Nat) (net : Net) (r : Except String String)
  | reset (i : Nat)

/-- The shared store, the sessions of the connections, and the `UpdateSendLimits`
statements the store has executed so far (plan id, increment), oldest first. -/
structure Sys where
  db : DB
  sessions : Nat → Session
  committed : List (Int × Int)

/-- The gateway before any connection: every session is `&Session{}`. -/
def Sys.init (db : DB) : Sys :=
  { db := db, sessions := fun _ => Session.new, committed := [] }

/-- Replace the session of connection `i`. -/
def setSession (sessions : Nat → Session) (i : Nat) (s : Session) : Nat → Session :=
  fun j => if j = i then s else sessions j

/-- One operation, run to completion (operations of different sessions interleave
at this granularity). After a panic the session keeps the fields written before it;
an `UpdateSendLimits` statement is recorded in `committed` when it was executed. -/
def Sys.step (lib : Lib) (singleRecipientOnly : Bool) (sys : Sys) : Op → Sys
  | .auth i mech username password =>
    { sys with sessions :=
        setSession sys.sessions i (Session.Auth sys.db (sys.sessions i) mech username password).2 }
  | .mail i from_ =>
    { sys with sessions := setSession sys.sessions i (Session.Mail lib (sys.sessions i) from_).2 }
  | .rcpt i to_ =>
    { sys with sessions := setSession sys.sessions i (Session.Rcpt (sys.sessions i) to_).2 }
  | .data i net r =>
    let res := Session.Data lib singleRecipientOnly net sys.db (sys.sessions i) r
    { db := res.db
      sessions := setSession sys.sessions i res.s
      committed := sys.committed ++ (if res.out = Outcome.ok then res.commits else []) }
  | .reset i =>
    { sys with sessions := setSession sys.sessions i (Session.Reset (sys.sessions i)) }

/-- Run a schedule of operations from left to right. -/
def Sys.run (lib : Lib) (singleRecipientOnly : Bool) (sys : Sys) (ops : List Op) : Sys :=
  ops.foldl (Sys.step lib singleRecipientOnly) sys

/-- Stored total usage of the plans with identifier `id` (one entry per row). -/
def DB.usedTotal (db : DB) (id : Int) : List Int :=
  (db.user_plans.filter fun r => r.id = id).map fun r => r.used_total_limit

/-- Sum of the increments committed for plan `id`. -/
def committedFor (id : Int) : List (Int × Int) → Int
  | [] => 0
  | (j, n) :: rest => (if j = id then n else 0) + committedFor id rest

/-! ## Concrete surroundings for the examples

`netMail` follows Go's `net/mail` on a fragment of its input language and reports an
error outside of it (where `net/mail` may accept more):

* `ParseAddress`: a bare `local@domain` whose two sides are dot-separated runs of
  ASCII letters, digits, `-`, `_`, `+`; the result has an empty `Name` and the input
  as `Address`.
* `Address.String` of such a result: the address between `<` and `>`.
* `ReadMessage`: header lines `Key: value` ended by LF or CRLF, keys of ASCII letters,
  digits and `-`, no continuation lines, a blank line, then the body; keys are
  brought to canonical MIME form and values are trimmed of spaces and tabs.
-/

/-- Character of an atom of the fragment. -/
def isAtomChar (c : Char) : Bool :=
  c.isAlphanum || c = '-' || c = '_' || c = '+'

/-- Dot-separated non-empty runs of atom characters. -/
def isDotAtom (cs : List Char) : Bool :=
  (splitChars '.' cs).all fun part => !part.isEmpty && part.all isAtomChar

/-- Go `mail.ParseAddress` on the fragment. -/
def netMailParseAddress (address : String) : Except String Address :=
  match splitChars '@' address.data with
  | [l, d] =>
    if isDotAtom l && isDotAtom d then .ok { Name := "", Address := address }
    else .error "mail: address outside the fragment"
  | _ => .error "mail: address outside the fragment"

/-- Go `(*mail.Address).String` on the fragment. -/
def netMailAddressString (a : Address) : String :=
  "<" ++ a.Address ++ ">"

/-- The first line of the input without its LF, and the rest. -/
def cutLine : List Char → Option (List Char × List Char)
  | [] => none
  | c :: rest =>
    if c = '\n' then some ([], rest)
    else
      match cutLine rest with
      | none => none
      | some (l, r) => some (c :: l, r)

/-- Drop one CR at the end of a line. -/
def dropCR (l : List Char) : List Char :=
  if l.getLast? = some '\r' then l.dropLast else l

/-- Split a header line at its first colon. -/
def cutColon : List Char → Option (List Char × List Char)
  | [] => none
  | c :: rest =>
    if c = ':' then some ([], rest)
    else
      match cutColon rest with
      | none => none
      | some (k, v) => some (c :: k, v)

/-- Space or tab. -/
def isBlank (c : Char) : Bool := c = ' ' || c = '\t'

/-- Remove leading and trailing spaces and tabs. -/
def trimBlank (l : List Char) : List Char :=
  ((l.dropWhile isBlank).reverse.dropWhile isBlank).reverse

/-- Go `textproto.CanonicalMIMEHeaderKey` on keys of letters, digits and `-`. -/
def canonicalKey : Bool → List Char → List Char
  | _, [] => []
  | upper, c :: rest =>
    (if upper then c.toUpper else c.toLower) :: canonicalKey (c = '-') rest

/-- Read header lines up to the blank line; `fuel` bounds the number of lines. -/
def readHeaderLines : Nat → List Char → Option (List (String × String) × List Char)
  | 0, _ => none
  | fuel + 1, cs =>
    match cutLine cs with
    | none => none
    | some (l, rest) =>
      let l := dropCR l
      if l.isEmpty then some ([], rest)
      else
        match cutColon l with
        | none => none
        | some (k, v) =>
          if !k.isEmpty && k.all (fun c => c.isAlphanum || c = '-') then
            match readHeaderLines fuel rest with
            | none => none
            | some (hs, body) =>
              some ((String.mk (canonicalKey true k), String.mk (trimBlank v)) :: hs, body)
          else none

/-- Go `mail.ReadMessage` on the fragment. -/
def netMailReadMessage (data : String) : Except String Message :=
  match readHeaderLines (data.data.length + 1) data.data with
  | none => .error "mail: message outside the fragment"
  | some (hs, body) => .ok { Header := hs, Body := String.mk body }

/-- The fragment of `net/mail`. -/
def netMail : Lib :=
  { ParseAddress := netMailParseAddress
    ReadMessage := netMailReadMessage
    AddressString := netMailAddressString }

/-- An upstream server that accepts every command and does not offer STARTTLS. -/
def upstreamOk : Net :=
  { now := "Wed, 04 Nov 2026 12:00:00 +0000", unixNano := 1793793600000000000, randInt := 42
    rangeOrder := fun headers => headers
    dial := fun _ => none, extSTARTTLS := false, startTLS := none
    auth := fun _ _ _ => none, mail := fun _ => none, rcpt := fun _ => none
    data := none, write := fun _ => none, close := none }

/-- An upstream server that cannot be reached. -/
def upstreamDown : Net :=
  { upstreamOk with dial := fun _ => some "dial tcp: connection refused" }

/-- A store with one active tenant: plan 1, total limit 100 with 99 used, allowed
domain `example.com`, relaying through `relay.example.net:25`. -/
def sampleDB : DB :=
  { user_plans :=
      [{ id := 1, username := "u", password := "p", status := 1, day_limit := 1000,
         hour_limit := 1000, total_limit := 100, used_day_limit := 0, used_hour_limit := 0,
         used_total_limit := 99, server_plan_id := 7 }]
    user_domains := [{ user_plan_id := 1, domain := "example.com", status := 1 }]
    server_plans := [{ plan_id := 7, server_id := 3 }]
    servers := [{ id := 3, host := "relay.example.net", port := "25",
                  username := "relay", password := "secret" }]
    queryErr := none
    execErr := none }

/-- The snapshot `GetUserAndDomainData` takes of the tenant of `sampleDB`. -/
def sampleUser : UserData :=
  { UserPlanID := 1, Status := 1, DayLimit := 1000, HourLimit := 1000, TotalLimit := 100,
    UsedDayLimit := 0, UsedHourLimit := 0, UsedTotalLimit := 99, Domains := ["example.com"],
    ServerHost := "relay.example.net", ServerPort := "25",
    ServerUsername := "relay", ServerPassword := "secret" }

/-- The store `sampleDB` after the tenant lost its only domain association. -/
def noDomainDB : DB :=
  { sampleDB with user_domains := [] }

/-- A session authenticated as the tenant of `sampleDB`. -/
def sampleSession : Session :=
  { Session.new with username := "u", password := "p", userData := some sampleUser }

/-- Equality of two strings up to the case of ASCII letters: the comparison a
case-insensitive domain match would make. -/
def equalFold (a b : String) : Bool :=
  a.data.map Char.toLower = b.data.map Char.toLower

/-- A message whose From header names a domain the tenant of `sampleDB` may not use. -/
def sampleMessage : String :=
  "From: evil@other.org\r\nSubject: hi\r\n\r\nbody"

/-- The session `sampleSession` after `MAIL FROM:<a@example.com>` and two recipients. -/
def readySession : Session :=
  { sampleSession with form := "a@example.com", to_ := ["x@y.z", "w@y.z"] }

/-- The `Email` that `Data` builds from `readySession` and `sampleMessage`. -/
def sampleEmail : Email :=
  { From := "<evil@other.org>", To := ["x@y.z", "w@y.z"], Subject := "hi", Body := "body",
    SMTPHost := "relay.example.net", SMTPPort := "25", Username := "relay",
    Password := "secret" }

/-- Two connections of the tenant of `sampleDB` (headroom 1): both authenticate, then
each names a sender and one recipient and delivers a body. -/
def raceOps : List Op :=
  [ Op.auth 0 "PLAIN" "u" "p", Op.auth 1 "LOGIN" "u" "p",
    Op.mail 0 "a@example.com", Op.rcpt 0 "x@y.z",
    Op.mail 1 "b@example.com", Op.rcpt 1 "w@y.z",
    Op.data 0 upstreamOk (.ok sampleMessage), Op.data 1 upstreamOk (.ok sampleMessage) ]

/-- The row `r` of `user_plans` after the committed increments `cs`. -/
def applyCommitted (cs : List (Int × Int)) (r : UserPlanRow) : UserPlanRow :=
  { r with used_total_limit := r.used_total_limit + committedFor r.id cs,
           used_day_limit := r.used_day_limit + committedFor r.id cs,
           used_hour_limit := r.used_hour_limit + committedFor r.id cs }

/-! ## Quota check and credential resolution -/

/-- C1: `CheckSendLimits` succeeds exactly when used < limit on the total, daily and
hourly tier; otherwise it reports the first tier, in the order total, daily, hourly,
whose used counter has reached its limit. With total limit 100, used 99 passes and
used 100 reports the total tier. -/
theorem CheckSendLimits_first_exceeded (u : UserData) :
    (CheckSendLimits u = none ↔
      u.UsedTotalLimit < u.TotalLimit ∧ u.UsedDayLimit < u.DayLimit
        ∧ u.UsedHourLimit < u.HourLimit)
    ∧ (u.UsedTotalLimit ≥ u.TotalLimit → CheckSendLimits u = some "total limit exceeded")
    ∧ (u.UsedTotalLimit < u.TotalLimit → u.UsedDayLimit ≥ u.DayLimit →
        CheckSendLimits u = some "daily limit exceeded")
    ∧ (u.UsedTotalLimit < u.TotalLimit → u.UsedDayLimit < u.DayLimit →
        u.UsedHourLimit ≥ u.HourLimit → CheckSendLimits u = some "hourly limit exceeded")
    ∧ CheckSendLimits { u with TotalLimit := 100, UsedTotalLimit := 100 }
        = some "total limit exceeded"
    ∧ CheckSendLimits sampleUser = none := by
  refine ⟨?_, ?_, ?_, ?_, ?_, ?_⟩
  · unfold CheckSendLimits
    split_ifs with h1 h2 h3
    · simp; intro h; omega
    · simp; intro _ h; omega
    · simp; intro _ _; omega
    · simp; omega
  · intro h
    simp [CheckSendLimits, h]
  · intro h1 h2
    have : ¬ u.UsedTotalLimit ≥ u.TotalLimit := by omega
    simp only [CheckSendLimits, this, h2, if_true, if_false]
  · intro h1 h2 h3
    have a : ¬ u.UsedTotalLimit ≥ u.TotalLimit := by omega
    have b : ¬ u.UsedDayLimit ≥ u.DayLimit := by omega
    simp only [CheckSendLimits, a, b, h3, if_true, if_false]
  · simp [CheckSendLimits]
  · decide

/-- C9: on a store where the credentials "u"/"p" match an active account that has
no domain association, `GetUserAndDomainData` returns the error text of a failed
login, not the text of the empty-domain check. -/
theorem GetUserAndDomainData_empty_domains :
    (∃ up ∈ noDomainDB.user_plans, up.username = "u" ∧ up.password = "p" ∧ up.status = 1)
    ∧ noDomainDB.user_domains = []
    ∧ noDomainDB.GetUserAndDomainData "u" "p" = .error "invalid username or password"
    ∧ checkCredentials noDomainDB "u" "p" = .error "invalid username or password"
    ∧ Session.Auth noDomainDB Session.new "PLAIN" "u" "p"
        = (.err "invalid username or password", Session.new) := by
  refine ⟨?_, rfl, rfl, rfl, rfl⟩
  exact ⟨_, List.mem_singleton.mpr rfl, rfl, rfl, rfl⟩

/-! ## Reset -/

/-- C5 as stated fails: after `Reset` a session authenticated as the tenant of
`sampleDB` holds no account reference. -/
theorem Reset_drops_account :
    sampleSession.userData = some sampleUser
    ∧ (Session.Reset sampleSession).userData = none := by
  decide

/-- C5 amended: `Reset` returns every session to the unauthenticated state: the
account reference, the user name and the password are cleared together with the
envelope sender and the recipient list. -/
theorem Reset_clears (s : Session) :
    (Session.Reset s).userData = none
    ∧ (Session.Reset s).username = "" ∧ (Session.Reset s).password = ""
    ∧ (Session.Reset s).form = "" ∧ (Session.Reset s).to_ = [] := by
  simp [Session.Reset]

/-! ## Set-sender -/

theorem validDomainLoop_iff (domain : String) (ds : List String) :
    validDomainLoop domain ds = true ↔ domain ∈ ds := by
  induction ds with
  | nil => simp [validDomainLoop]
  | cons d rest ih =>
    unfold validDomainLoop
    by_cases h : d = domain
    · simp [h]
    · have h2 : ¬ domain = d := fun e => h e.symm
      simp [h, h2, ih]

/-- C3 as stated fails: the sender `user@Example.com` has the domain `Example.com`,
which equals the allowed domain `example.com` up to letter case, and `Mail` rejects it. -/
theorem Mail_rejects_other_case :
    sampleSession.userData = some sampleUser
    ∧ sampleUser.Domains = ["example.com"]
    ∧ extractDomain netMail "user@Example.com" = .ok "Example.com"
    ∧ equalFold "example.com" "Example.com" = true
    ∧ Session.Mail netMail sampleSession "user@Example.com"
        = (.err "invalid domain", sampleSession) := by
  refine ⟨rfl, rfl, rfl, ?_, ?_⟩
  · decide
  · decide

/-- C3 amended: `Mail` compares the sender's domain with the allowed domains by
exact string equality. For a session authenticated with snapshot `u`, `Mail` accepts
`from_` if and only if `extractDomain` yields a domain that is an element of
`u.Domains`; it then stores `from_` as the sender. -/
theorem Mail_accepts_iff (lib : Lib) (s : Session) (u : UserData) (from_ : String)
    (hu : s.userData = some u) :
    ((Session.Mail lib s from_).1 = .ok ↔
      ∃ domain, extractDomain lib from_ = .ok domain ∧ domain ∈ u.Domains)
    ∧ ((Session.Mail lib s from_).1 = .ok →
        (Session.Mail lib s from_).2 = { s with form := from_ }) := by
  unfold Session.Mail
  cases hd : extractDomain lib from_ with
  | error e => simp
  | ok domain =>
    simp only [hu]
    by_cases hv : validDomainLoop domain u.Domains = true
    · have hm := (validDomainLoop_iff domain u.Domains).mp hv
      simp [hv, hm]
    · have hm : ¬ domain ∈ u.Domains := fun h => hv ((validDomainLoop_iff _ _).mpr h)
      simp [hv, hm]

/-- Witness of `Mail_accepts_iff`: `a@example.com` is accepted for the tenant of
`sampleDB`. -/
theorem Mail_accepts_iff_witness :
    sampleSession.userData = some sampleUser
    ∧ (((Session.Mail netMail sampleSession "a@example.com").1 = .ok ↔
        ∃ domain, extractDomain netMail "a@example.com" = .ok domain
          ∧ domain ∈ sampleUser.Domains)
      ∧ ((Session.Mail netMail sampleSession "a@example.com").1 = .ok →
          (Session.Mail netMail sampleSession "a@example.com").2
            = { sampleSession with form := "a@example.com" }))
    ∧ (Session.Mail netMail sampleSession "a@example.com").1 = .ok :=
  ⟨rfl, Mail_accepts_iff netMail sampleSession sampleUser "a@example.com" rfl, by decide⟩

/-! ## Body delivery -/

theorem UpdateSendLimits_err (db : DB) (id n : Int) (e : String)
    (h : (db.UpdateSendLimits id n).1 = some e) : (db.UpdateSendLimits id n).2 = db := by
  unfold DB.UpdateSendLimits at *
  cases hx : db.execErr with
  | none => simp [hx] at h
  | some err => simp

theorem UpdateSendLimits_ok (db : DB) (id n : Int)
    (h : (db.UpdateSendLimits id n).1 = none) :
    db.execErr = none
    ∧ (db.UpdateSendLimits id n).2
        = { db with user_plans := db.user_plans.map (bumpRow id n) } := by
  unfold DB.UpdateSendLimits at *
  cases hx : db.execErr with
  | none => simp
  | some err => simp [hx] at h

theorem forward_spec (single : Bool) (net : Net) (db : DB) (s : Session) (u : UserData)
    (email : Email) :
    (Session.forward single net db s u email).s = s
    ∧ (Session.forward single net db s u email).emails = [email]
    ∧ (Session.forward single net db s u email).trace = (SendEmail single net email).2
    ∧ (∀ err, (SendEmail single net email).1 = some err →
        (Session.forward single net db s u email).out = .err ("failed to forward email: " ++ err)
        ∧ (Session.forward single net db s u email).db = db
        ∧ (Session.forward single net db s u email).commits = [])
    ∧ ((SendEmail single net email).1 = none →
        (Session.forward single net db s u email).commits = [(u.UserPlanID, (s.to_.length : Int))]
        ∧ (Session.forward single net db s u email).db
            = (db.UpdateSendLimits u.UserPlanID s.to_.length).2
        ∧ ((Session.forward single net db s u email).out = .ok ↔ db.execErr = none)) := by
  unfold Session.forward
  cases hs : (SendEmail single net email).1 with
  | some e => simp [hs]
  | none =>
    cases hu : (db.UpdateSendLimits u.UserPlanID s.to_.length).1 with
    | some e =>
      have hx : db.execErr ≠ none := by
        intro hx
        simp [DB.UpdateSendLimits, hx] at hu
      simp [hs, hu, hx]
    | none => simp [hs, hu, (UpdateSendLimits_ok db _ _ hu).1]

/-- The possible courses of `Session.Data`: it stops before the relay, or it hands
exactly one `Email` to `Session.forward`. -/
theorem Data_cases (lib : Lib) (single : Bool) (net : Net) (db : DB) (s : Session)
    (r : Except String String) :
    ((Session.Data lib single net db s r).out ≠ .ok
      ∧ (Session.Data lib single net db s r).db = db
      ∧ (Session.Data lib single net db s r).emails = []
      ∧ (Session.Data lib single net db s r).trace = []
      ∧ (Session.Data lib single net db s r).commits = []
      ∧ (Session.Data lib single net db s r).s.userData = s.userData
      ∧ (Session.Data lib single net db s r).s.to_ = s.to_)
    ∨ (∃ u data message g,
        s.userData = some u ∧ r = .ok data ∧ lib.ReadMessage data = .ok message
        ∧ lib.ParseAddress (message.Get "From") = .ok g
        ∧ Session.Data lib single net db s r
            = Session.forward single net db
                { s with subject := message.Get "Subject", form := lib.AddressString g } u
                (Session.email
                  { s with subject := message.Get "Subject", form := lib.AddressString g }
                  message.Body u)) := by
  unfold Session.Data
  cases r with
  | error e => left; simp
  | ok data =>
    cases hm : lib.ReadMessage data with
    | error e => left; simp [hm]
    | ok message =>
      cases hp : lib.ParseAddress (message.Get "From") with
      | error e => left; simp [hm, hp]
      | ok g =>
        cases hu : s.userData with
        | none => left; simp [hm, hp, hu]
        | some u =>
          right
          exact ⟨u, data, message, g, rfl, rfl, hm, hp, by simp [hm, hp, hu]⟩

/-! ## Relay transcript -/

theorem rcptsOf_append (l1 l2 : List Cmd) : rcptsOf (l1 ++ l2) = rcptsOf l1 ++ rcptsOf l2 := by
  induction l1 with
  | nil => simp [rcptsOf]
  | cons c rest ih => cases c <;> simp [rcptsOf, ih]

theorem rcptLoop_rcpts (net : Net) (l : List String) :
    rcptsOf (rcptLoop net l).2 <+: l
    ∧ ((rcptLoop net l).1 = none → rcptsOf (rcptLoop net l).2 = l) := by
  induction l with
  | nil => simp [rcptLoop, rcptsOf]
  | cons a rest ih =>
    unfold rcptLoop
    cases h : net.rcpt a with
    | some e =>
      simp only [rcptsOf]
      exact ⟨⟨rest, rfl⟩, fun hc => by simp at hc⟩
    | none =>
      simp only [rcptsOf]
      refine ⟨?_, fun hc => ?_⟩
      · obtain ⟨t, ht⟩ := ih.1
        exact ⟨t, by simp [ht]⟩
      · rw [ih.2 hc]

theorem sendBody_rcpts (net : Net) (message : String) :
    rcptsOf (sendBody net message).2 = [] := by
  unfold sendBody
  cases net.data <;> cases net.write message <;> cases net.close <;> simp [rcptsOf]

theorem sendEnvelope_rcpts (net : Net) (email : Email) (l : List String) (message : String) :
    rcptsOf (sendEnvelope net email l message).2 <+: l
    ∧ ((sendEnvelope net email l message).1 = none →
        rcptsOf (sendEnvelope net email l message).2 = l) := by
  unfold sendEnvelope
  cases ha : net.auth email.Username email.Password email.SMTPHost with
  | some e => simp [rcptsOf]
  | none =>
    cases hm : net.mail email.From with
    | some e => simp [rcptsOf]
    | none =>
      cases hr : (rcptLoop net l).1 with
      | some e =>
        simp only [hr, rcptsOf_append, rcptsOf, List.nil_append]
        exact ⟨(rcptLoop_rcpts net l).1, fun hc => by simp at hc⟩
      | none =>
        simp only [hr, rcptsOf_append, rcptsOf, List.nil_append, sendBody_rcpts,
          List.append_nil]
        exact ⟨(rcptLoop_rcpts net l).1, fun _ => (rcptLoop_rcpts net l).2 hr⟩

theorem SendEmail_rcpts (single : Bool) (net : Net) (email : Email) :
    rcptsOf (SendEmail single net email).2 <+: truncateTo single email.To
    ∧ ((SendEmail single net email).1 = none →
        rcptsOf (SendEmail single net email).2 = truncateTo single email.To) := by
  unfold SendEmail
  cases hd : net.dial (email.SMTPHost ++ ":" ++ email.SMTPPort) with
  | some e => simp [hd, rcptsOf]
  | none =>
    cases ht : net.extSTARTTLS with
    | false =>
      simp only [hd, rcptsOf, Bool.false_eq_true, if_false]
      exact sendEnvelope_rcpts net email _ _
    | true =>
      cases hs : net.startTLS with
      | some e => simp [hd, hs, rcptsOf]
      | none =>
        simp only [hd, hs, rcptsOf_append, rcptsOf, List.nil_append, if_true]
        exact sendEnvelope_rcpts net email _ _

theorem writesOf_append (l1 l2 : List Cmd) :
    writesOf (l1 ++ l2) = writesOf l1 ++ writesOf l2 := by
  induction l1 with
  | nil => simp [writesOf]
  | cons c rest ih => cases c <;> simp [writesOf, ih]

theorem rcptLoop_writes (net : Net) (l : List String) : writesOf (rcptLoop net l).2 = [] := by
  induction l with
  | nil => simp [rcptLoop, writesOf]
  | cons a rest ih =>
    unfold rcptLoop
    cases h : net.rcpt a with
    | some e => simp [writesOf]
    | none => simpa [writesOf] using ih

theorem sendBody_writes (net : Net) (message : String) :
    writesOf (sendBody net message).2 <+: [message]
    ∧ ((sendBody net message).1 = none → writesOf (sendBody net message).2 = [message]) := by
  unfold sendBody
  cases hd : net.data with
  | some e => simp [writesOf]
  | none =>
    cases hw : net.write message with
    | some e => simp [writesOf]
    | none => cases hc : net.close <;> simp [writesOf]

theorem sendEnvelope_writes (net : Net) (email : Email) (l : List String) (message : String) :
    writesOf (sendEnvelope net email l message).2 <+: [message]
    ∧ ((sendEnvelope net email l message).1 = none →
        writesOf (sendEnvelope net email l message).2 = [message]) := by
  unfold sendEnvelope
  cases ha : net.auth email.Username email.Password email.SMTPHost with
  | some e => simp [writesOf]
  | none =>
    cases hm : net.mail email.From with
    | some e => simp [writesOf]
    | none =>
      cases hr : (rcptLoop net l).1 with
      | some e => simp [hr, writesOf_append, writesOf, rcptLoop_writes]
      | none =>
        have hb := sendBody_writes net message
        simpa [hr, writesOf_append, writesOf, rcptLoop_writes] using hb

theorem SendEmail_writes (single : Bool) (net : Net) (email : Email) :
    writesOf (SendEmail single net email).2 <+: [composeMessage single net email]
    ∧ ((SendEmail single net email).1 = none →
        writesOf (SendEmail single net email).2 = [composeMessage single net email]) := by
  unfold SendEmail
  cases hd : net.dial (email.SMTPHost ++ ":" ++ email.SMTPPort) with
  | some e => simp [hd, writesOf]
  | none =>
    cases ht : net.extSTARTTLS with
    | false =>
      simp only [hd, writesOf, Bool.false_eq_true, if_false]
      exact sendEnvelope_writes net email _ _
    | true =>
      cases hs : net.startTLS with
      | some e => simp [hd, hs, writesOf]
      | none =>
        simp only [hd, hs, writesOf_append, writesOf, List.nil_append, if_true]
        exact sendEnvelope_writes net email _ _

theorem foldl_headerLine (l : List (String × String)) :
    ∀ acc : String,
      l.foldl (fun message kv => message ++ (kv.1 ++ ": " ++ kv.2 ++ "\r\n")) acc
        = acc ++ concatLines (l.map headerLine) := by
  induction l with
  | nil => intro acc; simp [concatLines]
  | cons kv rest ih =>
    intro acc
    simp only [List.foldl_cons, List.map_cons, concatLines, ih]
    rw [String.append_assoc]
    rfl

theorem composeMessage_lines (single : Bool) (net : Net) (email : Email) :
    composeMessage single net email
      = concatLines ((net.rangeOrder (composeHeaders single net email)).map headerLine)
          ++ ("\r\n" ++ email.Body) := by
  unfold composeMessage
  rw [foldl_headerLine, String.empty_append]

theorem composeHeaders_single (net : Net) (email : Email) (a : String) (rest : List String) :
    composeHeaders true net { email with To := a :: rest }
      = [("From", email.From), ("To", a), ("Subject", email.Subject),
          ("MIME-Version", "1.0"), ("Content-Type", "text/html; charset=\"UTF-8\""),
          ("Date", net.now), ("Message-ID", generateMessageID net email.SMTPHost)] := by
  cases rest <;> simp [composeHeaders, setHeader, Join]

/-- C4: with the single-recipient policy enabled and recipients `a :: rest`, for a
`range` that visits every entry of the header map once: the text `SendEmail` writes
upstream consists of the seven header lines in the order of the `range`, among them
the one line `To: a`, then a blank line and the body, and no other text is written;
the To entry of the map is `a`; the recipient list of the upstream transaction is
`[a]`; the RCPT commands issued name no recipient but `a` (exactly `[a]` when the
relay succeeds); truncating a truncated list changes nothing. For recipients
`[a, b, c]` header and dispatched list are `a` and `[a]`. -/
theorem SendEmail_single_recipient (net : Net) (email : Email) (a b c : String)
    (rest l : List String)
    (hrange : (net.rangeOrder (composeHeaders true net { email with To := a :: rest })).Perm
      (composeHeaders true net { email with To := a :: rest })) :
    (∃ lines : List String,
        lines.Perm
          ["From: " ++ email.From ++ "\r\n", "To: " ++ a ++ "\r\n",
            "Subject: " ++ email.Subject ++ "\r\n", "MIME-Version: " ++ "1.0" ++ "\r\n",
            "Content-Type: " ++ "text/html; charset=\"UTF-8\"" ++ "\r\n",
            "Date: " ++ net.now ++ "\r\n",
            "Message-ID: " ++ generateMessageID net email.SMTPHost ++ "\r\n"]
        ∧ composeMessage true net { email with To := a :: rest }
            = concatLines lines ++ ("\r\n" ++ email.Body)
        ∧ writesOf (SendEmail true net { email with To := a :: rest }).2
            <+: [concatLines lines ++ ("\r\n" ++ email.Body)]
        ∧ ((SendEmail true net { email with To := a :: rest }).1 = none →
            writesOf (SendEmail true net { email with To := a :: rest }).2
              = [concatLines lines ++ ("\r\n" ++ email.Body)]))
    ∧ getHeader (composeHeaders true net { email with To := a :: rest }) "To" = a
    ∧ truncateTo true (a :: rest) = [a]
    ∧ rcptsOf (SendEmail true net { email with To := a :: rest }).2 <+: [a]
    ∧ ((SendEmail true net { email with To := a :: rest }).1 = none →
        rcptsOf (SendEmail true net { email with To := a :: rest }).2 = [a])
    ∧ truncateTo true (truncateTo true l) = truncateTo true l
    ∧ getHeader (composeHeaders true net { email with To := [a, b, c] }) "To" = a
    ∧ truncateTo true [a, b, c] = [a] := by
  have htr : ∀ (x : String) (xs : List String), truncateTo true (x :: xs) = [x] := by
    intro x xs
    cases xs <;> simp [truncateTo]
  have hhd : ∀ (x : String) (xs : List String),
      getHeader (composeHeaders true net { email with To := x :: xs }) "To" = x := by
    intro x xs
    rw [composeHeaders_single]
    simp [getHeader]
  refine ⟨?_, hhd a rest, htr a rest, ?_, ?_, ?_, hhd a _, htr a _⟩
  · refine ⟨(net.rangeOrder (composeHeaders true net { email with To := a :: rest })).map
      headerLine, ?_, ?_, ?_, ?_⟩
    · have hp := hrange.map headerLine
      have h2 : (composeHeaders true net { email with To := a :: rest }).map headerLine
          = ["From: " ++ email.From ++ "\r\n", "To: " ++ a ++ "\r\n",
              "Subject: " ++ email.Subject ++ "\r\n", "MIME-Version: " ++ "1.0" ++ "\r\n",
              "Content-Type: " ++ "text/html; charset=\"UTF-8\"" ++ "\r\n",
              "Date: " ++ net.now ++ "\r\n",
              "Message-ID: " ++ generateMessageID net email.SMTPHost ++ "\r\n"] := by
        rw [composeHeaders_single]
        rfl
      rw [h2] at hp
      exact hp
    · exact composeMessage_lines true net _
    · rw [← composeMessage_lines true net { email with To := a :: rest }]
      exact (SendEmail_writes true net _).1
    · intro hok
      rw [← composeMessage_lines true net { email with To := a :: rest }]
      exact (SendEmail_writes true net _).2 hok
  · have h := (SendEmail_rcpts true net { email with To := a :: rest }).1
    simpa [htr] using h
  · intro hok
    have h := (SendEmail_rcpts true net { email with To := a :: rest }).2 hok
    simpa [htr] using h
  · cases l with
    | nil => simp [truncateTo]
    | cons x xs => rw [htr x xs, htr x []]

/-- Witness of `SendEmail_single_recipient`: three recipients and an upstream server
that accepts everything and whose map order is the order of insertion; the relay
succeeds, one RCPT is issued, and the one text written carries the header line
`To: x@y.z`. -/
theorem SendEmail_single_recipient_witness :
    (upstreamOk.rangeOrder
        (composeHeaders true upstreamOk
          { sampleEmail with To := "x@y.z" :: ["w@y.z", "v@y.z"] })).Perm
      (composeHeaders true upstreamOk { sampleEmail with To := "x@y.z" :: ["w@y.z", "v@y.z"] })
    ∧ (SendEmail true upstreamOk
        { sampleEmail with To := "x@y.z" :: ["w@y.z", "v@y.z"] }).1 = none
    ∧ rcptsOf (SendEmail true upstreamOk
        { sampleEmail with To := "x@y.z" :: ["w@y.z", "v@y.z"] }).2 = ["x@y.z"]
    ∧ writesOf (SendEmail true upstreamOk
        { sampleEmail with To := "x@y.z" :: ["w@y.z", "v@y.z"] }).2
        = ["From: <evil@other.org>\r\nTo: x@y.z\r\nSubject: hi\r\nMIME-Version: 1.0\r\n"
            ++ "Content-Type: text/html; charset=\"UTF-8\"\r\n"
            ++ "Date: Wed, 04 Nov 2026 12:00:00 +0000\r\n"
            ++ "Message-ID: <1793793600000000000.42@relay.example.net>\r\n"
            ++ "\r\nbody"]
    ∧ (∃ lines : List String,
        lines.Perm
          ["From: " ++ sampleEmail.From ++ "\r\n", "To: " ++ "x@y.z" ++ "\r\n",
            "Subject: " ++ sampleEmail.Subject ++ "\r\n", "MIME-Version: " ++ "1.0" ++ "\r\n",
            "Content-Type: " ++ "text/html; charset=\"UTF-8\"" ++ "\r\n",
            "Date: " ++ upstreamOk.now ++ "\r\n",
            "Message-ID: " ++ generateMessageID upstreamOk sampleEmail.SMTPHost ++ "\r\n"]
        ∧ composeMessage true upstreamOk
            { sampleEmail with To := "x@y.z" :: ["w@y.z", "v@y.z"] }
            = concatLines lines ++ ("\r\n" ++ sampleEmail.Body)
        ∧ writesOf (SendEmail true upstreamOk
            { sampleEmail with To := "x@y.z" :: ["w@y.z", "v@y.z"] }).2
            <+: [concatLines lines ++ ("\r\n" ++ sampleEmail.Body)]
        ∧ ((SendEmail true upstreamOk
              { sampleEmail with To := "x@y.z" :: ["w@y.z", "v@y.z"] }).1 = none →
            writesOf (SendEmail true upstreamOk
              { sampleEmail with To := "x@y.z" :: ["w@y.z", "v@y.z"] }).2
              = [concatLines lines ++ ("\r\n" ++ sampleEmail.Body)])) :=
  ⟨List.Perm.refl _, rfl, rfl, rfl,
    (SendEmail_single_recipient upstreamOk sampleEmail "x@y.z" "w@y.z" "v@y.z"
      ["w@y.z", "v@y.z"] [] (List.Perm.refl _)).1⟩

/-! ## Relay outcome and commit -/

/-- C7: whenever `Data` hands an `Email` to `SendEmail` and `SendEmail` fails, at
whatever stage, `Data` returns the error "failed to forward email: ..." and calls
`UpdateSendLimits` not at all: the store, hence every usage counter, is unchanged. -/
theorem Data_relay_failure (lib : Lib) (single : Bool) (net : Net) (db : DB) (s : Session)
    (r : Except String String) (e : Email) (err : String)
    (hsent : (Session.Data lib single net db s r).emails = [e])
    (hfail : (SendEmail single net e).1 = some err) :
    (Session.Data lib single net db s r).out = .err ("failed to forward email: " ++ err)
    ∧ (Session.Data lib single net db s r).commits = []
    ∧ (Session.Data lib single net db s r).db = db := by
  rcases Data_cases lib single net db s r with h | ⟨u, data, message, g, _, _, _, _, heq⟩
  · rw [h.2.2.1] at hsent
    simp at hsent
  · rw [heq] at hsent ⊢
    have hf := forward_spec single net db
      { s with subject := message.Get "Subject", form := lib.AddressString g } u
      (Session.email { s with subject := message.Get "Subject", form := lib.AddressString g }
        message.Body u)
    rw [hf.2.1] at hsent
    have he := List.singleton_inj.mp hsent
    subst he
    have h3 := hf.2.2.2.1 err hfail
    exact ⟨h3.1, h3.2.2, h3.2.1⟩

/-- Witness of `Data_relay_failure`: the upstream server cannot be reached. -/
theorem Data_relay_failure_witness :
    (Session.Data netMail true upstreamDown sampleDB readySession (.ok sampleMessage)).emails
      = [sampleEmail]
    ∧ (SendEmail true upstreamDown sampleEmail).1
        = some ("failed to connect to SMTP server: " ++ "dial tcp: connection refused")
    ∧ ((Session.Data netMail true upstreamDown sampleDB readySession (.ok sampleMessage)).out
        = .err ("failed to forward email: "
            ++ ("failed to connect to SMTP server: " ++ "dial tcp: connection refused"))
      ∧ (Session.Data netMail true upstreamDown sampleDB readySession
          (.ok sampleMessage)).commits = []
      ∧ (Session.Data netMail true upstreamDown sampleDB readySession (.ok sampleMessage)).db
          = sampleDB) :=
  ⟨by decide, by decide,
    Data_relay_failure netMail true upstreamDown sampleDB readySession (.ok sampleMessage)
      sampleEmail _ (by decide) (by decide)⟩

/-- C8: whenever `Data` hands an `Email` to `SendEmail` and `SendEmail` succeeds,
`Data` calls `UpdateSendLimits` exactly once, for the plan of the session's account
and with the length of the session's recipient list, whatever the single-recipient
flag; on a store that executes the statement `Data` succeeds and the three usage
counters of every row of that plan grow by that length, all other rows unchanged. -/
theorem Data_commit (lib : Lib) (single : Bool) (net : Net) (db : DB) (s : Session)
    (u : UserData) (r : Except String String) (e : Email)
    (hu : s.userData = some u)
    (hsent : (Session.Data lib single net db s r).emails = [e])
    (hok : (SendEmail single net e).1 = none) :
    (Session.Data lib single net db s r).commits = [(u.UserPlanID, (s.to_.length : Int))]
    ∧ e.To = s.to_
    ∧ (db.execErr = none →
        (Session.Data lib single net db s r).out = .ok
        ∧ (Session.Data lib single net db s r).db
            = { db with user_plans :=
                  db.user_plans.map (bumpRow u.UserPlanID (s.to_.length : Int)) })
    ∧ (∀ row : UserPlanRow, row.id = u.UserPlanID →
        (bumpRow u.UserPlanID (s.to_.length : Int) row).used_total_limit
            = row.used_total_limit + s.to_.length
        ∧ (bumpRow u.UserPlanID (s.to_.length : Int) row).used_day_limit
            = row.used_day_limit + s.to_.length
        ∧ (bumpRow u.UserPlanID (s.to_.length : Int) row).used_hour_limit
            = row.used_hour_limit + s.to_.length)
    ∧ (∀ row : UserPlanRow, row.id ≠ u.UserPlanID →
        bumpRow u.UserPlanID (s.to_.length : Int) row = row) := by
  rcases Data_cases lib single net db s r with h | ⟨u2, data, message, g, hu2, _, _, _, heq⟩
  · rw [h.2.2.1] at hsent
    simp at hsent
  · rw [hu] at hu2
    have huu : u2 = u := (Option.some.inj hu2).symm
    subst huu
    rw [heq] at hsent ⊢
    have hf := forward_spec single net db
      { s with subject := message.Get "Subject", form := lib.AddressString g } u2
      (Session.email { s with subject := message.Get "Subject", form := lib.AddressString g }
        message.Body u2)
    rw [hf.2.1] at hsent
    have he := List.singleton_inj.mp hsent
    subst he
    have h3 := hf.2.2.2.2 hok
    refine ⟨h3.1, rfl, ?_, ?_, ?_⟩
    · intro hx
      refine ⟨h3.2.2.mpr hx, ?_⟩
      rw [h3.2.1]
      simp [DB.UpdateSendLimits, hx]
    · intro row hrow
      simp [bumpRow, hrow]
    · intro row hrow
      simp [bumpRow, hrow]

/-- Witness of `Data_commit`: with the single-recipient flag set and two recipients
in the session, one RCPT goes upstream and the counters grow by two. -/
theorem Data_commit_witness :
    rcptsOf (Session.Data netMail true upstreamOk sampleDB readySession
      (.ok sampleMessage)).trace = ["x@y.z"]
    ∧ (Session.Data netMail true upstreamOk sampleDB readySession
        (.ok sampleMessage)).db.usedTotal 1 = [101]
    ∧ (Session.Data netMail true upstreamOk sampleDB readySession (.ok sampleMessage)).commits
        = [(sampleUser.UserPlanID, (readySession.to_.length : Int))] :=
  ⟨by decide, by decide,
    (Data_commit netMail true upstreamOk sampleDB readySession sampleUser (.ok sampleMessage)
      sampleEmail rfl (by decide) (by decide)).1⟩

/-! ## Which sender is relayed -/

theorem Mail_userData (lib : Lib) (s : Session) (f : String) :
    (Session.Mail lib s f).2.userData = s.userData
    ∧ ((Session.Mail lib s f).1 = .ok → ∃ u, s.userData = some u) := by
  unfold Session.Mail
  cases hd : extractDomain lib f with
  | error e => simp
  | ok domain =>
    cases hu : s.userData with
    | none => simp [hu]
    | some u =>
      by_cases hv : validDomainLoop domain u.Domains = true <;> simp [hu, hv]

theorem Mail_ok_userData (lib : Lib) (s0 s : Session) (f : String)
    (h : Session.Mail lib s0 f = (.ok, s)) : ∃ u, s.userData = some u := by
  have h1 : (Session.Mail lib s0 f).1 = .ok := by rw [h]
  have h2 : (Session.Mail lib s0 f).2 = s := by rw [h]
  obtain ⟨u, hu⟩ := (Mail_userData lib s0 f).2 h1
  exact ⟨u, by rw [← h2, (Mail_userData lib s0 f).1, hu]⟩

/-- C10: when `Mail` accepted the envelope sender `f` and the From header of the
message delivered to `Data` parses to the address `g`, the `Email` handed to
`SendEmail` has `From` equal to the formatted `g`; the same `Email` results whatever
the sender stored by `Mail`, and no condition on the domain of `g` is involved. -/
theorem Data_relays_header_sender (lib : Lib) (single : Bool) (net : Net) (db : DB)
    (s0 s : Session) (f data : String) (message : Message) (g : Address)
    (hmail : Session.Mail lib s0 f = (.ok, s))
    (hread : lib.ReadMessage data = .ok message)
    (hparse : lib.ParseAddress (message.Get "From") = .ok g) :
    (∃ e, (Session.Data lib single net db s (.ok data)).emails = [e]
        ∧ e.From = lib.AddressString g)
    ∧ ∀ f2 : String,
        (Session.Data lib single net db { s with form := f2 } (.ok data)).emails
          = (Session.Data lib single net db s (.ok data)).emails := by
  obtain ⟨u, hu⟩ := Mail_ok_userData lib s0 s f hmail
  constructor
  · refine ⟨Session.email
      { s with subject := message.Get "Subject", form := lib.AddressString g }
      message.Body u, ?_, rfl⟩
    unfold Session.Data
    simp only [hread, hparse, hu]
    exact (forward_spec single net db _ u _).2.1
  · intro f2
    unfold Session.Data
    simp only [hread, hparse, hu]

/-- Witness of `Data_relays_header_sender`: the tenant of `sampleDB` may send from
`example.com` only; `Mail` accepts `a@example.com`, and `Data` then relays with the
sender `<evil@other.org>` taken from the From header. -/
theorem Data_relays_header_sender_witness :
    Session.Mail netMail sampleSession "a@example.com"
      = (.ok, { sampleSession with form := "a@example.com" })
    ∧ extractDomain netMail "evil@other.org" = .ok "other.org"
    ∧ "other.org" ∉ sampleUser.Domains
    ∧ (Session.Data netMail false upstreamOk sampleDB
        { sampleSession with form := "a@example.com" } (.ok sampleMessage)).out = .ok
    ∧ Cmd.mail "<evil@other.org>" ∈ (Session.Data netMail false upstreamOk sampleDB
        { sampleSession with form := "a@example.com" } (.ok sampleMessage)).trace
    ∧ ((∃ e, (Session.Data netMail false upstreamOk sampleDB
          { sampleSession with form := "a@example.com" } (.ok sampleMessage)).emails = [e]
          ∧ e.From = netMail.AddressString { Name := "", Address := "evil@other.org" })
      ∧ ∀ f2 : String,
          (Session.Data netMail false upstreamOk sampleDB
            { { sampleSession with form := "a@example.com" } with form := f2 }
            (.ok sampleMessage)).emails
          = (Session.Data netMail false upstreamOk sampleDB
              { sampleSession with form := "a@example.com" } (.ok sampleMessage)).emails) :=
  ⟨rfl, rfl, by decide, by decide, by decide,
    Data_relays_header_sender netMail false upstreamOk sampleDB sampleSession
      { sampleSession with form := "a@example.com" } "a@example.com" sampleMessage
      { Header := [("From", "evil@other.org"), ("Subject", "hi")], Body := "body" }
      { Name := "", Address := "evil@other.org" } rfl rfl rfl⟩

/-! ## Commands out of sequence -/

/-- C6 as stated fails: on a new session `Rcpt` is accepted and stores the
recipient; `Mail` with a well-formed address panics on the nil account; on an
authenticated session without sender and recipients `Data` relays, changes the
session and succeeds; on a new session `Data` changes the session and panics. -/
theorem commands_not_guarded :
    Session.Rcpt Session.new "x@y.z" = (.ok, { Session.new with to_ := ["x@y.z"] })
    ∧ (Session.Mail netMail Session.new "a@example.com").1 = .panic
    ∧ sampleSession.form = "" ∧ sampleSession.to_ = []
    ∧ (Session.Data netMail false upstreamOk sampleDB sampleSession (.ok sampleMessage)).out
        = .ok
    ∧ (Session.Data netMail false upstreamOk sampleDB sampleSession (.ok sampleMessage)).s
        = { sampleSession with form := "<evil@other.org>", subject := "hi" }
    ∧ Cmd.mail "<evil@other.org>" ∈
        (Session.Data netMail false upstreamOk sampleDB sampleSession
          (.ok sampleMessage)).trace
    ∧ (Session.Data netMail false upstreamOk sampleDB Session.new (.ok sampleMessage)).out
        = .panic
    ∧ (Session.Data netMail false upstreamOk sampleDB Session.new (.ok sampleMessage)).s
        = { Session.new with form := "<evil@other.org>", subject := "hi" } := by
  refine ⟨rfl, ?_, rfl, rfl, ?_, ?_, ?_, ?_, ?_⟩ <;> decide

/-- C6 amended: the session methods do not look at the state of the session.
`Rcpt` accepts in every state and appends the recipient. When `Mail` returns an
error the session is unchanged. When `Data` does not succeed the store is unchanged,
and when `Data` stops before the call of `SendEmail` nothing is sent upstream and
`UpdateSendLimits` is not called. -/
theorem commands_frame (lib : Lib) (single : Bool) (net : Net) (db : DB) (s : Session)
    (f t : String) (r : Except String String) :
    Session.Rcpt s t = (.ok, { s with to_ := s.to_ ++ [t] })
    ∧ (∀ msg, (Session.Mail lib s f).1 = .err msg → (Session.Mail lib s f).2 = s)
    ∧ ((Session.Data lib single net db s r).out ≠ .ok →
        (Session.Data lib single net db s r).db = db)
    ∧ ((Session.Data lib single net db s r).emails = [] →
        (Session.Data lib single net db s r).out ≠ .ok
        ∧ (Session.Data lib single net db s r).trace = []
        ∧ (Session.Data lib single net db s r).commits = []
        ∧ (Session.Data lib single net db s r).db = db) := by
  refine ⟨rfl, ?_, ?_, ?_⟩
  · intro msg
    unfold Session.Mail
    cases hd : extractDomain lib f with
    | error e => simp
    | ok domain =>
      cases hu : s.userData with
      | none => simp
      | some u =>
        by_cases hv : validDomainLoop domain u.Domains = true <;> simp [hv]
  · intro hne
    rcases Data_cases lib single net db s r with h | ⟨u, data, message, g, _, _, _, _, heq⟩
    · exact h.2.1
    · rw [heq] at hne ⊢
      have hf := forward_spec single net db
        { s with subject := message.Get "Subject", form := lib.AddressString g } u
        (Session.email { s with subject := message.Get "Subject", form := lib.AddressString g }
          message.Body u)
      cases hs : (SendEmail single net (Session.email
          { s with subject := message.Get "Subject", form := lib.AddressString g }
          message.Body u)).1 with
      | some e => exact (hf.2.2.2.1 e hs).2.1
      | none =>
        have h3 := hf.2.2.2.2 hs
        rw [h3.2.1]
        have hx : db.execErr ≠ none := fun hx => hne (h3.2.2.mpr hx)
        unfold DB.UpdateSendLimits
        cases he : db.execErr with
        | none => exact absurd he hx
        | some e => rfl
  · intro hem
    rcases Data_cases lib single net db s r with h | ⟨u, data, message, g, _, _, _, _, heq⟩
    · exact ⟨h.1, h.2.2.2.1, h.2.2.2.2.1, h.2.1⟩
    · rw [heq, (forward_spec single net db _ u _).2.1] at hem
      simp at hem

/-! ## Sessions competing for one quota -/

theorem CheckSendLimits_none (u : UserData) (h : CheckSendLimits u = none) :
    u.UsedTotalLimit < u.TotalLimit ∧ u.UsedDayLimit < u.DayLimit
      ∧ u.UsedHourLimit < u.HourLimit := by
  unfold CheckSendLimits at h
  split_ifs at h with h1 h2 h3
  omega

theorem committedFor_append (id : Int) (cs ds : List (Int × Int)) :
    committedFor id (cs ++ ds) = committedFor id cs + committedFor id ds := by
  induction cs with
  | nil => simp [committedFor]
  | cons c rest ih =>
    obtain ⟨j, n⟩ := c
    show (if j = id then n else 0) + committedFor id (rest ++ ds) = _
    rw [ih]
    simp only [committedFor]
    ring

theorem bumpRow_applyCommitted (id n : Int) (cs : List (Int × Int)) (r : UserPlanRow) :
    bumpRow id n (applyCommitted cs r) = applyCommitted (cs ++ [(id, n)]) r := by
  unfold bumpRow applyCommitted
  by_cases h : r.id = id
  · have h2 : id = r.id := h.symm
    simp [committedFor_append, committedFor, h, add_assoc]
  · have h2 : ¬ id = r.id := fun e => h e.symm
    simp [committedFor_append, committedFor, h, h2]

theorem applyCommitted_nil (r : UserPlanRow) : applyCommitted [] r = r := by
  simp [applyCommitted, committedFor]

theorem Auth_userData (db : DB) (s : Session) (mech username password : String) (u : UserData)
    (h : (Session.Auth db s mech username password).2.userData = some u) :
    s.userData = some u ∨ CheckSendLimits u = none := by
  unfold Session.Auth at h
  by_cases hm : mech = "LOGIN" ∨ mech = "PLAIN"
  · simp only [hm, if_true] at h
    cases hc : checkCredentials db username password with
    | error e =>
      simp only [hc] at h
      exact Or.inl h
    | ok v =>
      simp only [hc] at h
      have hv : v = u := Option.some.inj h
      subst hv
      right
      unfold checkCredentials at hc
      cases hg : db.GetUserAndDomainData username password with
      | error e => simp [hg] at hc
      | ok w =>
        cases hl : CheckSendLimits w with
        | some e => simp [hg, hl] at hc
        | none =>
          simp [hg, hl] at hc
          rw [← hc]
          exact hl
  · simp only [hm, if_false] at h
    exact Or.inl h

/-- What a body delivery does to the store, by its outcome. -/
theorem Data_store (lib : Lib) (single : Bool) (net : Net) (db : DB) (s : Session)
    (r : Except String String) :
    (Session.Data lib single net db s r).s.userData = s.userData
    ∧ ((Session.Data lib single net db s r).out ≠ .ok →
        (Session.Data lib single net db s r).db = db)
    ∧ ((Session.Data lib single net db s r).out = .ok →
        ∃ u, s.userData = some u
          ∧ (Session.Data lib single net db s r).commits
              = [(u.UserPlanID, (s.to_.length : Int))]
          ∧ (Session.Data lib single net db s r).db
              = { db with user_plans :=
                    db.user_plans.map (bumpRow u.UserPlanID (s.to_.length : Int)) }) := by
  rcases Data_cases lib single net db s r with h | ⟨u, data, message, g, hu, _, _, _, heq⟩
  · exact ⟨h.2.2.2.2.2.1, fun _ => h.2.1, fun hok => absurd hok h.1⟩
  · rw [heq]
    have hf := forward_spec single net db
      { s with subject := message.Get "Subject", form := lib.AddressString g } u
      (Session.email { s with subject := message.Get "Subject", form := lib.AddressString g }
        message.Body u)
    refine ⟨by rw [hf.1], ?_, ?_⟩
    · intro hne
      cases hs : (SendEmail single net (Session.email
          { s with subject := message.Get "Subject", form := lib.AddressString g }
          message.Body u)).1 with
      | some e => exact (hf.2.2.2.1 e hs).2.1
      | none =>
        have h3 := hf.2.2.2.2 hs
        rw [h3.2.1]
        have hx : db.execErr ≠ none := fun hx => hne (h3.2.2.mpr hx)
        unfold DB.UpdateSendLimits
        cases he : db.execErr with
        | none => exact absurd he hx
        | some e => rfl
    · intro hok
      cases hs : (SendEmail single net (Session.email
          { s with subject := message.Get "Subject", form := lib.AddressString g }
          message.Body u)).1 with
      | some e =>
        rw [(hf.2.2.2.1 e hs).1] at hok
        simp at hok
      | none =>
        have h3 := hf.2.2.2.2 hs
        have hx := h3.2.2.mp hok
        refine ⟨u, hu, h3.1, ?_⟩
        rw [h3.2.1]
        simp [DB.UpdateSendLimits, hx]

/-- The invariant of the shared store and the sessions is kept by every operation. -/
theorem step_invariant (lib : Lib) (single : Bool) (rows : List UserPlanRow) (sys : Sys)
    (op : Op)
    (hdb : sys.db.user_plans = rows.map (applyCommitted sys.committed))
    (hs : ∀ i u, (sys.sessions i).userData = some u → CheckSendLimits u = none) :
    (Sys.step lib single sys op).db.user_plans
        = rows.map (applyCommitted (Sys.step lib single sys op).committed)
    ∧ ∀ i u, ((Sys.step lib single sys op).sessions i).userData = some u →
        CheckSendLimits u = none := by
  cases op with
  | auth j mech username password =>
    refine ⟨hdb, ?_⟩
    intro i u hi
    simp only [Sys.step, setSession] at hi
    by_cases hij : i = j
    · simp only [hij, if_true] at hi
      rcases Auth_userData _ _ _ _ _ _ hi with h | h
      · exact hs j u h
      · exact h
    · simp only [hij, if_false] at hi
      exact hs i u hi
  | mail j f =>
    refine ⟨hdb, ?_⟩
    intro i u hi
    simp only [Sys.step, setSession] at hi
    by_cases hij : i = j
    · simp only [hij, if_true] at hi
      rw [(Mail_userData lib (sys.sessions j) f).1] at hi
      exact hs j u hi
    · simp only [hij, if_false] at hi
      exact hs i u hi
  | rcpt j t =>
    refine ⟨hdb, ?_⟩
    intro i u hi
    simp only [Sys.step, setSession] at hi
    by_cases hij : i = j
    · simp only [hij, if_true, Session.Rcpt] at hi
      exact hs j u hi
    · simp only [hij, if_false] at hi
      exact hs i u hi
  | reset j =>
    refine ⟨hdb, ?_⟩
    intro i u hi
    simp only [Sys.step, setSession] at hi
    by_cases hij : i = j
    · simp [hij, Session.Reset] at hi
    · simp only [hij, if_false] at hi
      exact hs i u hi
  | data j net r =>
    have hd := Data_store lib single net sys.db (sys.sessions j) r
    constructor
    · simp only [Sys.step]
      by_cases hok : (Session.Data lib single net sys.db (sys.sessions j) r).out = .ok
      · obtain ⟨u, _, hc, hdb2⟩ := hd.2.2 hok
        simp only [hok, if_true]
        rw [hdb2, hc]
        simp only [hdb, List.map_map]
        apply List.map_congr_left
        intro row _
        exact bumpRow_applyCommitted _ _ _ _
      · simp only [hok, if_false, List.append_nil]
        rw [hd.2.1 hok]
        exact hdb
    · intro i u hi
      simp only [Sys.step, setSession] at hi
      by_cases hij : i = j
      · simp only [hij, if_true] at hi
        rw [hd.1] at hi
        exact hs j u hi
      · simp only [hij, if_false] at hi
        exact hs i u hi

theorem run_invariant (lib : Lib) (single : Bool) (rows : List UserPlanRow) (ops : List Op) :
    ∀ sys : Sys,
      sys.db.user_plans = rows.map (applyCommitted sys.committed) →
      (∀ i u, (sys.sessions i).userData = some u → CheckSendLimits u = none) →
      (Sys.run lib single sys ops).db.user_plans
          = rows.map (applyCommitted (Sys.run lib single sys ops).committed)
      ∧ ∀ i u, ((Sys.run lib single sys ops).sessions i).userData = some u →
          CheckSendLimits u = none := by
  induction ops with
  | nil => intro sys hdb hs; exact ⟨hdb, hs⟩
  | cons op rest ih =>
    intro sys hdb hs
    have h := step_invariant lib single rows sys op hdb hs
    exact ih (Sys.step lib single sys op) h.1 h.2

/-- C2 as stated fails: the tenant of `sampleDB` has total limit 100 and 99 used;
two sessions authenticate, then each delivers one message to one recipient, and the
stored total usage is 101. -/
theorem race_exceeds_total_limit :
    sampleDB.usedTotal 1 = [99]
    ∧ (sampleDB.user_plans.map fun row => row.total_limit) = [100]
    ∧ (Sys.run netMail false (Sys.init sampleDB) raceOps).db.usedTotal 1 = [101]
    ∧ (Sys.run netMail false (Sys.init sampleDB) raceOps).committed = [(1, 1), (1, 1)] := by
  refine ⟨?_, ?_, ?_, ?_⟩ <;> decide

/-- C2 amended: the ledger admits every commit. After any schedule of operations of
any number of sessions, started from the gateway without connections, each row of
`user_plans` holds its initial counters plus the sum of the recipient counts of the
deliveries committed for its plan; the limits are consulted at authentication only:
every authenticated session holds a snapshot with used < limit on all three tiers. -/
theorem run_usage (lib : Lib) (single : Bool) (db : DB) (ops : List Op) :
    (Sys.run lib single (Sys.init db) ops).db.user_plans
        = db.user_plans.map (applyCommitted (Sys.run lib single (Sys.init db) ops).committed)
    ∧ (∀ row ∈ db.user_plans,
        (applyCommitted (Sys.run lib single (Sys.init db) ops).committed row).used_total_limit
          = row.used_total_limit
            + committedFor row.id (Sys.run lib single (Sys.init db) ops).committed)
    ∧ ∀ i u, ((Sys.run lib single (Sys.init db) ops).sessions i).userData = some u →
        u.UsedTotalLimit < u.TotalLimit ∧ u.UsedDayLimit < u.DayLimit
          ∧ u.UsedHourLimit < u.HourLimit := by
  have h := run_invariant lib single db.user_plans ops (Sys.init db)
    (by
      have hid : applyCommitted [] = fun r => r := funext applyCommitted_nil
      simp [Sys.init, hid])
    (by intro i u hi; simp [Sys.init, Session.new] at hi)
  exact ⟨h.1, fun _ _ => rfl, fun i u hi => CheckSendLimits_none u (h.2 i u hi)⟩

end SmtpSever
